import Mathlib

/-!
Shallow embedding of LibrePCB's board design rule check
(`src/libs/librepcb/core/project/board/drc/boarddesignrulecheck.cpp`)
and proofs about it.  C++ `Length` values are signed 64-bit nanometre
counts, modelled as `Int`; C++ integer division truncates toward zero,
modelled by `Int.tdiv`.  `ClipperLib` polygon sets are modelled as finite
sets of plane cells (see `PolySet` below).
-/

namespace LibrePCB

/-! ### Length arithmetic of the copper-copper clearance offset
(`BoardDesignRuleCheck::checkCopperCopperClearances`, lines 225-227) -/

/-- A `Length`: a signed count of nanometres. -/
abbrev Length := Int

/-- Translated from
`std::max(((clearance - maxArcTolerance()) / 2) - Length(1), Length(0))`:
the offset applied to every item collected by the copper-copper clearance
check.  C++ `operator/` on the underlying `qint64` truncates toward zero. -/
def copperCopperOffset (clearance tol : Length) : Length :=
  max ((clearance - tol).tdiv 2 - 1) 0

/-- Modelled from the spec: the offset delta as the spec phrases it,
`floor((clearance - max_arc_tolerance) / 2) - 1`, clamped to be at least 0;
`Int.fdiv` is floor division. -/
def copperCopperOffsetSpec (clearance tol : Length) : Length :=
  max ((clearance - tol).fdiv 2 - 1) 0

/-! ### Pass selection of `BoardDesignRuleCheck::execute` (lines 83-120) -/

/-- The passes `execute` can run, in source order. -/
inductive Pass
  | rebuildPlanes
  | minimumCopperWidth
  | copperCopperClearances
  | copperBoardClearances
  | copperHoleClearances
  | minimumPthAnnularRing
  | minimumNpthDrillDiameter
  | minimumNpthSlotWidth
  | minimumPthDrillDiameter
  | minimumPthSlotWidth
  | allowedNpthSlots
  | allowedPthSlots
  | invalidPadConnections
  | courtyardClearances
  | unplacedComponents
  | missingConnections
  | staleObjects
deriving DecidableEq, Repr

/-- Translated from `execute(bool quick)`: the sequence of passes invoked,
with the two `if (!quick)` blocks of the source. -/
def executePasses (quick : Bool) : List Pass :=
  (if quick then [] else [.rebuildPlanes]) ++
  [.minimumCopperWidth, .copperCopperClearances, .copperBoardClearances,
   .copperHoleClearances] ++
  (if quick then [] else
    [.minimumPthAnnularRing, .minimumNpthDrillDiameter, .minimumNpthSlotWidth,
     .minimumPthDrillDiameter, .minimumPthSlotWidth, .allowedNpthSlots,
     .allowedPthSlots, .invalidPadConnections, .courtyardClearances,
     .unplacedComponents, .missingConnections, .staleObjects])

/-- Translated from `mIgnorePlanes = quick;` in `execute`. -/
def ignorePlanesFlag (quick : Bool) : Bool := quick

/-! ### Progress percentages (`execute` and `emitProgress`, lines 1065-1068)

`execute` emits 2 at the start and 100 at the end.  `rebuildPlanes` emits 12
only in full mode.  Every check emits its `progressEnd` value, except that a
check whose governing setting is disabled returns before its
`emitProgress` call; the checks without a governing setting
(invalid pad connections, courtyard, unplaced, missing connections, stale
objects) always emit theirs when the pass runs. -/

/-- One gated progress emission: the value is emitted iff the gate holds. -/
def gatedStep (gate : Bool) (value : Nat) : List Nat :=
  if gate then [value] else []

/-- The stream of progress percentages of one `execute` run.  `quick` is the
quick flag; the remaining flags say which governing settings are enabled
(`an`/`ap` stand for `allowed_npth_slots`/`allowed_pth_slots` being
restricted, i.e. not `Any`). -/
def progressSeq (quick mw cc cb ch ar nd ns pd ps an ap : Bool) : List Nat :=
  2 :: (gatedStep (!quick) 12 ++
  (gatedStep mw 14 ++ (gatedStep cc 34 ++ (gatedStep cb 44 ++
  (gatedStep ch 54 ++ (gatedStep (!quick && ar) 64 ++
  (gatedStep (!quick && nd) 66 ++ (gatedStep (!quick && ns) 68 ++
  (gatedStep (!quick && pd) 70 ++ (gatedStep (!quick && ps) 72 ++
  (gatedStep (!quick && an) 74 ++ (gatedStep (!quick && ap) 76 ++
  (gatedStep (!quick) 78 ++ (gatedStep (!quick) 91 ++
  (gatedStep (!quick) 93 ++ (gatedStep (!quick) 95 ++
  (gatedStep (!quick) 97 ++ [100])))))))))))))))))

/-- Every possible progress value, in emission order. -/
def progressMaster : List Nat :=
  [2, 12, 14, 34, 44, 54, 64, 66, 68, 70, 72, 74, 76, 78, 91, 93, 95, 97, 100]

theorem gatedStep_cons_sublist (gate : Bool) (x : Nat) {l₁ l₂ : List Nat}
    (h : l₁.Sublist l₂) : (gatedStep gate x ++ l₁).Sublist (x :: l₂) := by
  cases gate
  · simpa [gatedStep] using List.Sublist.cons x h
  · simpa [gatedStep] using List.Sublist.cons₂ x h

theorem progressSeq_sublist (quick mw cc cb ch ar nd ns pd ps an ap : Bool) :
    (progressSeq quick mw cc cb ch ar nd ns pd ps an ap).Sublist
      progressMaster := by
  unfold progressSeq progressMaster
  refine List.Sublist.cons₂ 2 ?_
  refine gatedStep_cons_sublist _ _ ?_
  refine gatedStep_cons_sublist _ _ ?_
  refine gatedStep_cons_sublist _ _ ?_
  refine gatedStep_cons_sublist _ _ ?_
  refine gatedStep_cons_sublist _ _ ?_
  refine gatedStep_cons_sublist _ _ ?_
  refine gatedStep_cons_sublist _ _ ?_
  refine gatedStep_cons_sublist _ _ ?_
  refine gatedStep_cons_sublist _ _ ?_
  refine gatedStep_cons_sublist _ _ ?_
  refine gatedStep_cons_sublist _ _ ?_
  refine gatedStep_cons_sublist _ _ ?_
  refine gatedStep_cons_sublist _ _ ?_
  refine gatedStep_cons_sublist _ _ ?_
  refine gatedStep_cons_sublist _ _ ?_
  refine gatedStep_cons_sublist _ _ ?_
  refine gatedStep_cons_sublist _ _ ?_
  exact List.Sublist.refl [100]

theorem getLast?_append_some (l₁ l₂ : List Nat) (a : Nat)
    (h : l₂.getLast? = some a) : (l₁ ++ l₂).getLast? = some a := by
  rw [List.getLast?_append, h]
  rfl

theorem progressSeq_getLast (quick mw cc cb ch ar nd ns pd ps an ap : Bool) :
    (progressSeq quick mw cc cb ch ar nd ns pd ps an ap).getLast? =
      some 100 := by
  unfold progressSeq
  rw [← List.singleton_append]
  apply getLast?_append_some
  repeat (first | exact rfl | apply getLast?_append_some)

/-! ### Claim theorems for C2, C6, C7 -/

theorem tdiv_fdiv_clamp (d : Int) :
    max (d.tdiv 2 - 1) 0 = max (d.fdiv 2 - 1) 0 := by
  rw [Int.fdiv_eq_ediv d (by norm_num)]
  rcases le_or_lt 0 d with h | h
  · rw [Int.tdiv_eq_ediv h (by norm_num)]
  · have h1 : d.tdiv 2 = -((-d).tdiv 2) := by rw [Int.neg_tdiv, neg_neg]
    rw [h1, Int.tdiv_eq_ediv (by omega) (by norm_num)]
    have h2 : -d / 2 = -(d / 2) - (if (2 : Int) ∣ d then 0 else 1) := by omega
    rcases em ((2 : Int) ∣ d) with hdvd | hdvd <;> simp [hdvd] at h2 <;> omega

/-- C2: for every clearance and arc-tolerance setting, the offset applied to
each item in the copper-copper clearance check equals
`floor((clearance - max_arc_tolerance) / 2) - 1` clamped to be at least 0:
the C++ truncating division of the source agrees with the spec's floor
division once the clamp is applied. -/
theorem copperCopperOffset_eq_floor_formula (clearance tol : Length) :
    copperCopperOffset clearance tol = copperCopperOffsetSpec clearance tol :=
  tdiv_fdiv_clamp (clearance - tol)

/-- C6: with `quick = true`, exactly the starred passes are elided: plane
rebuild, annular ring, and the drill/slot/allowed-slot/invalid-pad/
courtyard/unplaced/missing-connection/stale passes are not run, while
minimum copper width, copper-copper, copper-board and copper-hole clearance
still run, with planes ignored (`mIgnorePlanes = quick`). -/
theorem quick_mode_pass_selection :
    executePasses true =
      [.minimumCopperWidth, .copperCopperClearances, .copperBoardClearances,
       .copperHoleClearances] ∧
    ignorePlanesFlag true = true ∧
    executePasses false =
      [.rebuildPlanes, .minimumCopperWidth, .copperCopperClearances,
       .copperBoardClearances, .copperHoleClearances, .minimumPthAnnularRing,
       .minimumNpthDrillDiameter, .minimumNpthSlotWidth,
       .minimumPthDrillDiameter, .minimumPthSlotWidth, .allowedNpthSlots,
       .allowedPthSlots, .invalidPadConnections, .courtyardClearances,
       .unplacedComponents, .missingConnections, .staleObjects] := by
  refine ⟨rfl, rfl, rfl⟩

/-- C7: for every combination of settings and the quick flag, the sequence of
progress percentages emitted during one `execute` run is non-decreasing and
its last value is 100. -/
theorem progress_monotone_ends_at_100
    (quick mw cc cb ch ar nd ns pd ps an ap : Bool) :
    (progressSeq quick mw cc cb ch ar nd ns pd ps an ap).Sorted (· ≤ ·) ∧
    (progressSeq quick mw cc cb ch ar nd ns pd ps an ap).getLast? =
      some 100 := by
  constructor
  · exact List.Pairwise.sublist
      (progressSeq_sublist quick mw cc cb ch ar nd ns pd ps an ap)
      (by decide)
  · exact progressSeq_getLast quick mw cc cb ch ar nd ns pd ps an ap

/-! ### Area model of `ClipperLib` polygon sets

Modelled from the spec: the polygon algebra (`ClipperHelpers`, outside
`src/`) provides union, intersection and difference over polygon sets, and
`intersect(A, B)` returns a set that is empty iff A and B have no interior
overlap.  A polygon set is therefore modelled as a finite list of plane
cells treated as a set; the boolean operations become set operations and
only the emptiness of the result matters to the checks. -/

/-- A polygon set, as a finite collection of plane cells. -/
abbrev PolySet := List (Int × Int)

/-- `ClipperHelpers::intersect` followed by `flattenTree`. -/
def interPS (A B : PolySet) : PolySet := A.filter (fun c => B.contains c)

/-- `ClipperHelpers::unite` of one set into an accumulator. -/
def unitePS (A B : PolySet) : PolySet := A ++ B

/-- `ClipperHelpers::subtractToTree` followed by `flattenTree`. -/
def subtractPS (A B : PolySet) : PolySet := A.filter (fun c => !B.contains c)

/-- `ClipperHelpers::intersect(const QList<ClipperLib::Paths>&)`:
intersection over a list of polygon sets. -/
def interListPS : List PolySet → PolySet
  | [] => []
  | [A] => A
  | A :: rest => interPS A (interListPS rest)

/-- Accumulating `ClipperHelpers::unite` over a list of polygon sets,
starting from the empty accumulator (the shape of the per-layer union loops
in `checkCopperHoleClearances` and `checkMinimumPthAnnularRing`). -/
def uniteListPS (l : List PolySet) : PolySet := l.foldl unitePS []

/-! ### Copper-copper clearance check
(`BoardDesignRuleCheck::checkCopperCopperClearances`, lines 217-381) -/

/-- An entry of the `items` vector built by `checkCopperCopperClearances`:
the board object's identity, its layer name (empty string = through-hole,
as for vias), its net signal (`none` = no net) and its offset polygon set. -/
structure CCItem where
  objId : Nat
  layer : String
  netSignal : Option Nat
  areas : PolySet
deriving DecidableEq, Repr

/-- A `DrcMsgCopperCopperClearanceViolation`: both items and the
intersection as locations. -/
structure CCViolation where
  objId1 : Nat
  objId2 : Nat
  locations : PolySet
deriving DecidableEq, Repr

/-- The unordered pairs visited by the nested loop of lines 357-378:
`it1` runs over the vector, `it2` over the strictly later entries, so each
pair of positions is visited exactly once, in iteration-append order. -/
def ccPairs : List CCItem → List (CCItem × CCItem)
  | [] => []
  | a :: rest => rest.map (fun b => (a, b)) ++ ccPairs rest

/-- The guard of lines 361-364, translated literally:
`((it1->netSignal != it2->netSignal) || (!it1->netSignal) ||
(!it2->netSignal)) && (it1->layer.isEmpty() || it2->layer.isEmpty() ||
(it1->layer == it2->layer))`. -/
def ccProceed (a b : CCItem) : Bool :=
  (decide (a.netSignal ≠ b.netSignal) || a.netSignal.isNone ||
    b.netSignal.isNone) &&
  (decide (a.layer = "") || decide (b.layer = "") ||
    decide (a.layer = b.layer))

/-- Translated from the intersection loop of `checkCopperCopperClearances`:
for every visited pair passing the guard, intersect the two polygon sets
and emit one violation iff the intersection is non-empty. -/
def checkCopperCopperClearances (items : List CCItem) : List CCViolation :=
  (ccPairs items).filterMap fun p =>
    if ccProceed p.1 p.2 then
      let intersections := interPS p.1.areas p.2.areas
      if intersections.isEmpty then none
      else some ⟨p.1.objId, p.2.objId, intersections⟩
    else none

/-- Modelled from the spec: the pair is skipped when both items carry the
same non-null net signal, or when both items have a non-empty layer and the
layers differ. -/
def ccSpecSkip (a b : CCItem) : Bool :=
  (a.netSignal.isSome && b.netSignal.isSome &&
    decide (a.netSignal = b.netSignal)) ||
  (decide (a.layer ≠ "") && decide (b.layer ≠ "") &&
    decide (a.layer ≠ b.layer))

/-- Modelled from the spec: the copper-copper check as claim C1 states it,
over the same pair iteration. -/
def checkCopperCopperClearancesSpec (items : List CCItem) : List CCViolation :=
  (ccPairs items).filterMap fun p =>
    if ccSpecSkip p.1 p.2 then none
    else
      let intersections := interPS p.1.areas p.2.areas
      if intersections.isEmpty then none
      else some ⟨p.1.objId, p.2.objId, intersections⟩

theorem ccProceed_eq_not_skip (a b : CCItem) :
    ccProceed a b = !ccSpecSkip a b := by
  obtain ⟨i, l₁, n₁, A₁⟩ := a
  obtain ⟨j, l₂, n₂, A₂⟩ := b
  simp only [ccProceed, ccSpecSkip]
  cases n₁ <;> cases n₂ <;>
    by_cases h₁ : l₁ = "" <;> by_cases h₂ : l₂ = "" <;>
      by_cases h₃ : l₁ = l₂ <;>
        simp_all [Option.isNone, Option.isSome]

/-- C1: in the copper-copper clearance check, for every unordered pair of
collected items, visited once in iteration-append order, the pair is
skipped when both items carry the same non-null net signal, skipped when
both have a non-empty layer and the layers differ, and otherwise exactly
one `CopperCopperClearanceViolation` with both items and the intersection
as locations is emitted iff the intersection of the two polygon sets is
non-empty. -/
theorem copperCopperClearance_matches_spec (items : List CCItem) :
    checkCopperCopperClearances items =
      checkCopperCopperClearancesSpec items := by
  unfold checkCopperCopperClearances checkCopperCopperClearancesSpec
  have hf : (fun (p : CCItem × CCItem) =>
      if ccProceed p.1 p.2 then
        let intersections := interPS p.1.areas p.2.areas
        if intersections.isEmpty then none
        else some (CCViolation.mk p.1.objId p.2.objId intersections)
      else none) =
      (fun (p : CCItem × CCItem) =>
      if ccSpecSkip p.1 p.2 then none
      else
        let intersections := interPS p.1.areas p.2.areas
        if intersections.isEmpty then none
        else some (CCViolation.mk p.1.objId p.2.objId intersections)) := by
    funext p
    rw [ccProceed_eq_not_skip]
    cases h : ccSpecSkip p.1 p.2 <;> simp
  rw [hf]

/-! ### The copper-paths cache
(`BoardDesignRuleCheck::getCopperPaths`, lines 1019-1028, and `execute`,
lines 83-120) -/

/-- The cache key of `getCopperPaths`:
`qMakePair(&layer, netsignals)` — the layer identity and the set of net
signals.  Note that the ignore-planes flag is NOT part of the key. -/
abbrev CopperKey := Nat × List Nat

/-- `QHash` lookup over the cache, by key equality. -/
def lookupCache : List (CopperKey × PolySet) → CopperKey → Option PolySet
  | [], _ => none
  | (k, v) :: rest, key => if k = key then some v else lookupCache rest key

/-- The mutable state of a `BoardDesignRuleCheck` instance relevant to the
cache: `mIgnorePlanes` and `mCachedPaths`. -/
structure DrcState where
  ignorePlanes : Bool
  cachedPaths : List (CopperKey × PolySet)
deriving Repr

/-- The state after the constructor: `mIgnorePlanes(false)` and an empty
cache. -/
def initialDrcState : DrcState := ⟨false, []⟩

/-- Translated from `getCopperPaths`: on a miss the generator is run with
the CURRENT `mIgnorePlanes` flag and the result stored under the
flag-less key; on a hit the stored value is returned unchanged.  `gen`
stands for `BoardClipperPathGenerator::addCopper` (modelled from the spec:
it produces all copper of the layer restricted to the given net signals,
honouring the ignore-planes flag; the class is outside `src/`). -/
def getCopperPaths (gen : Nat → List Nat → Bool → PolySet) (st : DrcState)
    (layer : Nat) (netsignals : List Nat) : PolySet × DrcState :=
  match lookupCache st.cachedPaths (layer, netsignals) with
  | some paths => (paths, st)
  | none =>
      let paths := gen layer netsignals st.ignorePlanes
      (paths,
        { st with
            cachedPaths := st.cachedPaths ++ [((layer, netsignals), paths)] })

/-- The cache lookups of one run, in order: the checks request the copper
paths of each enabled copper layer with the empty net-signal set (as
`checkCopperHoleClearances` and `checkMinimumPthAnnularRing` do). -/
def runLookupsAux (gen : Nat → List Nat → Bool → PolySet) :
    List Nat → List PolySet → DrcState → List PolySet × DrcState
  | [], acc, st => (acc, st)
  | l :: rest, acc, st =>
      let r := getCopperPaths gen st l []
      runLookupsAux gen rest (acc ++ [r.1]) r.2

/-- Translated from `execute`: a run sets `mIgnorePlanes = quick`, performs
its cache lookups, and returns the final state.  `execute` clears
`mProgressStatus` and `mMessages` but NOT `mCachedPaths`, so the cache of
the incoming state is reused as is. -/
def runLookups (gen : Nat → List Nat → Bool → PolySet) (quick : Bool)
    (layers : List Nat) (st : DrcState) : List PolySet × DrcState :=
  runLookupsAux gen layers [] { st with ignorePlanes := quick }

/-- Every cache entry holds exactly the generator output for its key under
flag `flag`. -/
def CacheOK (gen : Nat → List Nat → Bool → PolySet) (flag : Bool)
    (cache : List (CopperKey × PolySet)) : Prop :=
  ∀ kv ∈ cache, kv.2 = gen kv.1.1 kv.1.2 flag

theorem lookupCache_cacheOK {gen : Nat → List Nat → Bool → PolySet}
    {flag : Bool} {cache : List (CopperKey × PolySet)} {k : CopperKey}
    {v : PolySet} (hok : CacheOK gen flag cache)
    (h : lookupCache cache k = some v) : v = gen k.1 k.2 flag := by
  induction cache with
  | nil => simp [lookupCache] at h
  | cons kv rest ih =>
      obtain ⟨k₀, v₀⟩ := kv
      by_cases hk : k₀ = k
      · subst hk
        simp [lookupCache] at h
        subst h
        exact hok (k₀, v₀) (by simp)
      · simp [lookupCache, hk] at h
        exact ih (fun kv hkv => hok kv (by simp [hkv])) h

theorem getCopperPaths_ok {gen : Nat → List Nat → Bool → PolySet}
    {flag : Bool} {st : DrcState} (l : Nat) (ns : List Nat)
    (hflag : st.ignorePlanes = flag)
    (hok : CacheOK gen flag st.cachedPaths) :
    (getCopperPaths gen st l ns).1 = gen l ns flag ∧
    (getCopperPaths gen st l ns).2.ignorePlanes = flag ∧
    CacheOK gen flag (getCopperPaths gen st l ns).2.cachedPaths := by
  unfold getCopperPaths
  cases h : lookupCache st.cachedPaths (l, ns) with
  | some paths =>
      exact ⟨lookupCache_cacheOK hok h, hflag, hok⟩
  | none =>
      refine ⟨by simp [hflag], by simp [hflag], ?_⟩
      intro kv hkv
      simp at hkv
      rcases hkv with hkv | hkv
      · exact hok kv hkv
      · subst hkv
        simp [hflag]

theorem runLookupsAux_ok {gen : Nat → List Nat → Bool → PolySet}
    {flag : Bool} (layers : List Nat) (acc : List PolySet) (st : DrcState)
    (hflag : st.ignorePlanes = flag)
    (hok : CacheOK gen flag st.cachedPaths) :
    (runLookupsAux gen layers acc st).1 =
      acc ++ layers.map (fun l => gen l [] flag) := by
  induction layers generalizing acc st with
  | nil => simp [runLookupsAux]
  | cons l rest ih =>
      obtain ⟨h₁, h₂, h₃⟩ := getCopperPaths_ok l [] hflag hok
      simp only [runLookupsAux]
      rw [ih _ _ h₂ h₃, h₁]
      simp

/-- C3a (amended): provided a run starts with an empty cache (as the first
run of a freshly constructed instance does), every value returned by
`getCopperPaths` during the run equals the polygon set freshly generated
for its (layer, net-signal set) key under the run's ignore-planes flag. -/
theorem getCopperPaths_fresh_within_run
    (gen : Nat → List Nat → Bool → PolySet) (quick : Bool)
    (layers : List Nat) (st : DrcState) (h : st.cachedPaths = []) :
    (runLookups gen quick layers st).1 =
      layers.map (fun l => gen l [] quick) := by
  unfold runLookups
  exact runLookupsAux_ok layers [] _ rfl (by simp [h, CacheOK])

/-- Witness for `getCopperPaths_fresh_within_run` at a concrete generator,
run and state. -/
theorem getCopperPaths_fresh_within_run_witness :
    (runLookups (fun l _ ip => if ip then [] else [(Int.ofNat l, 0)]) false
        [3, 3, 5] initialDrcState).1 =
      [[(3, 0)], [(3, 0)], [(5, 0)]] := by
  rw [getCopperPaths_fresh_within_run
    (fun l _ ip => if ip then [] else [(Int.ofNat l, 0)]) false [3, 3, 5]
    initialDrcState rfl]
  rfl

/-- The generator of the stale-cache counterexample: the copper differs
depending on the ignore-planes flag (a plane contributes the cell (0, 0)
only when planes are not ignored). -/
def genCE : Nat → List Nat → Bool → PolySet :=
  fun _ _ ignorePlanes => if ignorePlanes then [] else [(0, 0)]

/-- C3 counterexample: run a quick DRC (ignore-planes true), then a full
DRC (ignore-planes false) on the same instance, as `execute(true)` followed
by `execute(false)` does.  The second run's lookup returns the cached
planes-ignoring value `[]`, while the polygon set freshly generated for
that key under the second run's ignore-planes flag is `[(0, 0)]`: the
cache key does not distinguish the flag and the cache is not cleared
between runs, so the claim fails. -/
theorem copperPathsCache_stale_across_runs :
    (runLookups genCE false [0]
        (runLookups genCE true [0] initialDrcState).2).1 = [[]] ∧
    genCE 0 [] false = [(0, 0)] ∧
    (runLookups genCE false [0]
        (runLookups genCE true [0] initialDrcState).2).1 ≠
      [genCE 0 [] false] := by
  refine ⟨rfl, rfl, ?_⟩
  decide

/-! ### Minimum PTH annular ring check
(`BoardDesignRuleCheck::checkMinimumPthAnnularRing`, lines 607-685) -/

/-- A `BI_Via` as the annular-ring check sees it: identity, position and
drill diameter (a `PositiveLength`, so at least 1 nm in a well-formed
board; modelled as plain `Int` so that the guard of line 632 is
observable). -/
structure ViaM where
  objId : Nat
  position : Int × Int
  drillDiameter : Int
deriving DecidableEq, Repr

/-- A `PadHole` of a footprint pad: its diameter and the identity of its
path. -/
structure PadHoleM where
  diameter : Int
  pathId : Nat
deriving DecidableEq, Repr

/-- A `BI_FootprintPad` as the annular-ring check sees it: identity, its
library pad's holes, and the identity of `Transform(*pad)`. -/
structure PadM where
  objId : Nat
  holes : List PadHoleM
  transformId : Nat
deriving DecidableEq, Repr

/-- A `DrcMsgMinimumAnnularRingViolation`, emitted either for a via or for
a pad. -/
inductive AnnMsg
  | via (objId : Nat)
  | pad (objId : Nat)
deriving DecidableEq, Repr

/-- The `PositiveLength` constructor: fails with `InvalidRange` on a
non-positive value. -/
def mkPositiveLength (n : Int) : Option Int :=
  if 0 < n then some n else none

/-- Translated from the via loop of lines 628-650.  `disc` stands for the
geometry kernel's `Path::circle(PositiveLength(diameter)).translated(pos)`
flattened to a polygon set (modelled from the spec; `Path` is outside
`src/`).  The outer `Option` is failure of the `PositiveLength`
constructor; the inner `Option` is the emitted message, if any.  A via
whose disc diameter is non-positive is skipped before the constructor
runs. -/
def viaAnnularMsg (disc : Int → Int × Int → PolySet) (annular : Int)
    (T : PolySet) (v : ViaM) : Option (Option AnnMsg) :=
  let diameter := v.drillDiameter + annular * 2 - 1
  if diameter ≤ 0 then some none
  else
    match mkPositiveLength diameter with
    | none => none
    | some d =>
        let areas := disc d v.position
        let remaining := subtractPS areas T
        some (if remaining.isEmpty then none else some (.via v.objId))

/-- The via loop over the whole net-segment iteration, collecting emitted
messages in order; `none` propagates an `InvalidRange` failure. -/
def viaAnnularMsgsGo (disc : Int → Int × Int → PolySet) (annular : Int)
    (T : PolySet) : List ViaM → Option (List AnnMsg)
  | [] => some []
  | v :: rest =>
      match viaAnnularMsg disc annular T v with
      | none => none
      | some m? =>
          (viaAnnularMsgsGo disc annular T rest).map
            (fun ms => m?.toList ++ ms)

/-- Translated from the hole loop of lines 657-669: the united areas of one
pad's holes, each hole stroked at its disc diameter, skipping holes whose
disc diameter is non-positive.  `stroke` stands for
`transform.map(hole.getPath()->toOutlineStrokes(PositiveLength(d)))`
flattened (modelled from the spec), keyed by the hole's path identity, the
diameter and the pad's transform identity. -/
def padAnnularAreasGo (stroke : Nat → Int → Nat → PolySet) (annular : Int)
    (tid : Nat) : List PadHoleM → PolySet → Option PolySet
  | [], acc => some acc
  | h :: rest, acc =>
      let diameter := h.diameter + annular * 2 - 1
      if diameter ≤ 0 then padAnnularAreasGo stroke annular tid rest acc
      else
        match mkPositiveLength diameter with
        | none => none
        | some d =>
            padAnnularAreasGo stroke annular tid rest
              (unitePS acc (stroke h.pathId d tid))

/-- Translated from the pad loop of lines 653-682: one subtraction of the
all-layer copper `T` from the pad's united hole areas, and at most ONE
message per pad. -/
def padAnnularMsg (stroke : Nat → Int → Nat → PolySet) (annular : Int)
    (T : PolySet) (p : PadM) : Option (Option AnnMsg) :=
  (padAnnularAreasGo stroke annular p.transformId p.holes []).map
    (fun areas =>
      if (subtractPS areas T).isEmpty then none else some (.pad p.objId))

/-- The pad loop over the device iteration. -/
def padAnnularMsgsGo (stroke : Nat → Int → Nat → PolySet) (annular : Int)
    (T : PolySet) : List PadM → Option (List AnnMsg)
  | [] => some []
  | p :: rest =>
      match padAnnularMsg stroke annular T p with
      | none => none
      | some m? =>
          (padAnnularMsgsGo stroke annular T rest).map
            (fun ms => m?.toList ++ ms)

/-- Translated from `checkMinimumPthAnnularRing`: `T` is the intersection
of the copper polygon sets of every enabled copper layer
(`copperByLayer`); the via messages come before the pad messages. -/
def checkMinimumPthAnnularRing (disc : Int → Int × Int → PolySet)
    (stroke : Nat → Int → Nat → PolySet) (annular : Int)
    (copperByLayer : List PolySet) (vias : List ViaM) (pads : List PadM) :
    Option (List AnnMsg) :=
  match viaAnnularMsgsGo disc annular (interListPS copperByLayer) vias,
      padAnnularMsgsGo stroke annular (interListPS copperByLayer) pads with
  | some vms, some pms => some (vms ++ pms)
  | _, _ => none

/-- The total (failure-free) form of one pad's united hole areas. -/
def padUnionAreas (stroke : Nat → Int → Nat → PolySet) (annular : Int)
    (p : PadM) : PolySet :=
  p.holes.foldl
    (fun acc h =>
      let diameter := h.diameter + annular * 2 - 1
      if diameter ≤ 0 then acc
      else unitePS acc (stroke h.pathId diameter p.transformId)) []

/-- Modelled from the spec: claim C4's reading of the pad part, 'the same
procedure applies to each pad hole' — one violation per pad hole whose
stroked disc minus `T` is non-empty. -/
def padAnnularPerHoleSpec (stroke : Nat → Int → Nat → PolySet)
    (annular : Int) (T : PolySet) (p : PadM) : List AnnMsg :=
  p.holes.filterMap fun h =>
    let diameter := h.diameter + annular * 2 - 1
    if (subtractPS (stroke h.pathId diameter p.transformId) T).isEmpty
    then none else some (.pad p.objId)

theorem padAnnularAreasGo_eq (stroke : Nat → Int → Nat → PolySet)
    (annular : Int) (tid : Nat) (holes : List PadHoleM) (acc : PolySet) :
    padAnnularAreasGo stroke annular tid holes acc =
      some (holes.foldl
        (fun acc h =>
          let diameter := h.diameter + annular * 2 - 1
          if diameter ≤ 0 then acc
          else unitePS acc (stroke h.pathId diameter tid)) acc) := by
  induction holes generalizing acc with
  | nil => rfl
  | cons h rest ih =>
      simp only [padAnnularAreasGo, List.foldl_cons]
      by_cases hd : h.diameter + annular * 2 - 1 ≤ 0
      · rw [if_pos hd, if_pos hd, ih]
      · rw [if_neg hd, if_neg hd, mkPositiveLength,
          if_pos (show (0 : Int) < h.diameter + annular * 2 - 1 by omega)]
        exact ih _

theorem padAnnularMsg_eq (stroke : Nat → Int → Nat → PolySet)
    (annular : Int) (T : PolySet) (p : PadM) :
    padAnnularMsg stroke annular T p =
      some (if (subtractPS (padUnionAreas stroke annular p) T).isEmpty
        then none else some (.pad p.objId)) := by
  unfold padAnnularMsg padUnionAreas
  rw [padAnnularAreasGo_eq]
  rfl

theorem padAnnularMsgsGo_eq (stroke : Nat → Int → Nat → PolySet)
    (annular : Int) (T : PolySet) (pads : List PadM) :
    padAnnularMsgsGo stroke annular T pads =
      some ((pads.filter (fun p =>
        !(subtractPS (padUnionAreas stroke annular p) T).isEmpty)).map
          (fun p => AnnMsg.pad p.objId)) := by
  induction pads with
  | nil => simp [padAnnularMsgsGo]
  | cons p rest ih =>
      rw [padAnnularMsgsGo, padAnnularMsg_eq, ih]
      by_cases hp : (subtractPS (padUnionAreas stroke annular p) T).isEmpty <;>
        simp [hp, List.filter_cons]

theorem viaAnnularMsgsGo_eq (disc : Int → Int × Int → PolySet)
    (annular : Int) (T : PolySet) (vias : List ViaM)
    (hpos : ∀ v ∈ vias, 0 < v.drillDiameter + annular * 2 - 1) :
    viaAnnularMsgsGo disc annular T vias =
      some ((vias.filter (fun v =>
        !(subtractPS (disc (v.drillDiameter + annular * 2 - 1) v.position)
          T).isEmpty)).map (fun v => AnnMsg.via v.objId)) := by
  induction vias with
  | nil => rfl
  | cons v rest ih =>
      have hv := hpos v (by simp)
      simp only [viaAnnularMsgsGo, viaAnnularMsg]
      rw [if_neg (show ¬(v.drillDiameter + annular * 2 - 1 ≤ 0) by omega),
        mkPositiveLength, if_pos hv,
        ih (fun w hw => hpos w (by simp [hw]))]
      by_cases hd : (subtractPS
          (disc (v.drillDiameter + annular * 2 - 1) v.position) T).isEmpty <;>
        simp [hd, List.filter_cons]

/-- C4 (amended): in the minimum annular ring check with a positive annular
setting and positive drill diameters, `T` is the intersection of the
per-layer copper sets; each via's disc of diameter
`drill + 2*annular - 1` at the via position yields a violation iff
`disc - T` is non-empty; and each PAD (not each pad hole) yields a single
violation iff the union of its holes' stroked areas minus `T` is
non-empty. -/
theorem annularRing_check_characterization
    (disc : Int → Int × Int → PolySet) (stroke : Nat → Int → Nat → PolySet)
    (annular : Int) (copperByLayer : List PolySet) (vias : List ViaM)
    (pads : List PadM) (hann : 1 ≤ annular)
    (hdrill : ∀ v ∈ vias, 1 ≤ v.drillDiameter) :
    checkMinimumPthAnnularRing disc stroke annular copperByLayer vias pads =
      some (((vias.filter (fun v =>
          !(subtractPS (disc (v.drillDiameter + annular * 2 - 1) v.position)
            (interListPS copperByLayer)).isEmpty)).map
              (fun v => AnnMsg.via v.objId)) ++
        ((pads.filter (fun p =>
          !(subtractPS (padUnionAreas stroke annular p)
            (interListPS copperByLayer)).isEmpty)).map
              (fun p => AnnMsg.pad p.objId))) := by
  unfold checkMinimumPthAnnularRing
  rw [viaAnnularMsgsGo_eq disc annular _ vias
    (fun v hv => by have := hdrill v hv; omega)]
  rw [padAnnularMsgsGo_eq]

/-- Witness for `annularRing_check_characterization` at a concrete board:
one via of drill 300000 nm whose disc sticks out of the all-layer copper,
with annular setting 100000 nm. -/
theorem annularRing_check_characterization_witness :
    checkMinimumPthAnnularRing (fun d _ => [(d, 0)]) (fun _ _ _ => [])
        100000 [[(1, 1)]] [⟨4, (0, 0), 300000⟩] [] =
      some [AnnMsg.via 4] := by
  rw [annularRing_check_characterization (fun d _ => [(d, 0)])
    (fun _ _ _ => []) 100000 [[(1, 1)]] [⟨4, (0, 0), 300000⟩] []
    (by decide) (by decide)]
  rfl

/-- C4 counterexample: a pad with TWO holes, both of whose stroked discs
lie entirely outside the all-layer copper `T = []`.  The source emits ONE
`MinimumAnnularRingViolation` for the pad, while the claim's 'same
procedure applies to each pad hole' yields one violation per hole, i.e.
two. -/
theorem annularRing_per_hole_claim_false :
    checkMinimumPthAnnularRing (fun d _ => [(d, 0)]) (fun _ _ _ => [(0, 0)])
        1 [] [] [⟨7, [⟨5, 1⟩, ⟨5, 2⟩], 0⟩] = some [AnnMsg.pad 7] ∧
    padAnnularPerHoleSpec (fun _ _ _ => [(0, 0)]) 1 (interListPS [])
        ⟨7, [⟨5, 1⟩, ⟨5, 2⟩], 0⟩ = [AnnMsg.pad 7, AnnMsg.pad 7] := by
  exact ⟨rfl, rfl⟩

/-- C10: the annular-ring check never fails with `InvalidRange`: the whole
check always returns a result, a via whose computed disc diameter is
non-positive is silently skipped (no message, no `PositiveLength`
construction), and a pad hole with non-positive disc diameter contributes
nothing to its pad's areas. -/
theorem annularRing_nonpositive_diameter_skipped
    (disc : Int → Int × Int → PolySet) (stroke : Nat → Int → Nat → PolySet)
    (annular : Int) (copperByLayer : List PolySet) (vias : List ViaM)
    (pads : List PadM) :
    (checkMinimumPthAnnularRing disc stroke annular copperByLayer vias
      pads).isSome = true ∧
    (∀ (T : PolySet) (v : ViaM), v.drillDiameter + annular * 2 - 1 ≤ 0 →
      viaAnnularMsg disc annular T v = some none) ∧
    (∀ (tid : Nat) (h : PadHoleM) (rest : List PadHoleM) (acc : PolySet),
      h.diameter + annular * 2 - 1 ≤ 0 →
      padAnnularAreasGo stroke annular tid (h :: rest) acc =
        padAnnularAreasGo stroke annular tid rest acc) := by
  refine ⟨?_, ?_, ?_⟩
  · have hvia : ∀ (T : PolySet) (vs : List ViaM),
        (viaAnnularMsgsGo disc annular T vs).isSome = true := by
      intro T vs
      induction vs with
      | nil => rfl
      | cons v rest ih =>
          simp only [viaAnnularMsgsGo, viaAnnularMsg]
          by_cases hd : v.drillDiameter + annular * 2 - 1 ≤ 0
          · rw [if_pos hd]
            simpa using ih
          · rw [if_neg hd, mkPositiveLength,
              if_pos (show (0 : Int) < v.drillDiameter + annular * 2 - 1 by
                omega)]
            simpa using ih
    unfold checkMinimumPthAnnularRing
    have h₁ := hvia (interListPS copperByLayer) vias
    rw [padAnnularMsgsGo_eq]
    cases hv : viaAnnularMsgsGo disc annular (interListPS copperByLayer) vias
    · rw [hv] at h₁
      simp at h₁
    · simp
  · intro T v hd
    simp only [viaAnnularMsg]
    rw [if_pos hd]
  · intro tid h rest acc hd
    simp only [padAnnularAreasGo]
    rw [if_pos hd]

/-- Witness for `annularRing_nonpositive_diameter_skipped` at concrete
inputs: with annular setting 0 the guard fires for a via of drill 0 and a
pad hole of diameter 0. -/
theorem annularRing_nonpositive_diameter_skipped_witness :
    (checkMinimumPthAnnularRing (fun _ _ => []) (fun _ _ _ => []) 0 [] []
      []).isSome = true ∧
    viaAnnularMsg (fun _ _ => []) 0 [] ⟨1, (0, 0), 0⟩ = some none ∧
    padAnnularAreasGo (fun _ _ _ => []) 0 0 [⟨0, 9⟩] [] =
      padAnnularAreasGo (fun _ _ _ => []) 0 0 [] [] := by
  obtain ⟨h₁, h₂, h₃⟩ := annularRing_nonpositive_diameter_skipped
    (fun _ _ => []) (fun _ _ _ => []) 0 [] [] []
  exact ⟨h₁, h₂ [] ⟨1, (0, 0), 0⟩ (by decide), h₃ 0 ⟨0, 9⟩ [] [] (by decide)⟩

/-! ### Copper-to-NPTH-hole clearance check
(`BoardDesignRuleCheck::checkCopperHoleClearances`, lines 556-605) -/

/-- A `Hole`: identity, diameter and the identity of its path. -/
structure HoleM where
  objId : Nat
  diameter : Int
  pathId : Nat
deriving DecidableEq, Repr

/-- A `BI_Device` as the hole-clearance check sees it: identity, its
footprint's holes and the identity of `Transform(*device)`. -/
structure DeviceHolesM where
  objId : Nat
  holes : List HoleM
  transformId : Nat
deriving DecidableEq, Repr

/-- A `DrcMsgCopperHoleClearanceViolation`: the owning device (`none` for a
board-level hole) and the hole. -/
structure CHMsg where
  device : Option Nat
  holeId : Nat
deriving DecidableEq, Repr

/-- Modelled from the spec: `maxArcTolerance()` is declared in the header
(outside `src/`); the spec fixes the global arc tolerance at 5 µm =
5000 nm, a `PositiveLength`. -/
def maxArcToleranceNm : Int := 5000

/-- The hole-clearance check, generic in the stroke width used for each
hole.  `strokeHole` stands for `BoardClipperPathGenerator::addHole`
followed by `Transform::map` and flattening (modelled from the spec:
'the hole's path stroked by hole.diameter + 2δ'), keyed by the hole's path
identity, the stroke width and the transform identity.  The copper area
`C` is the union of the copper polygon sets of every enabled copper layer;
board-level holes use the identity transform (id 0) and are checked before
the device-level holes. -/
def checkCopperHoleClearancesWith (strokeHole : Nat → Int → Nat → PolySet)
    (width : Int → Int) (copperByLayer : List PolySet)
    (boardHoles : List HoleM) (devices : List DeviceHolesM) : List CHMsg :=
  (boardHoles.filterMap fun h =>
    if !(interPS (uniteListPS copperByLayer)
        (strokeHole h.pathId (width h.diameter) 0)).isEmpty
    then some ⟨none, h.objId⟩ else none) ++
  devices.flatMap fun dev => dev.holes.filterMap fun h =>
    if !(interPS (uniteListPS copperByLayer)
        (strokeHole h.pathId (width h.diameter) dev.transformId)).isEmpty
    then some ⟨some dev.objId, h.objId⟩ else none

/-- Translated from `checkCopperHoleClearances`: the offset passed to
`addHole` is `clearance - *maxArcTolerance() - Length(1)` (line 577), so
each hole's path is stroked at width
`hole.diameter + 2*(clearance - tol - 1)`. -/
def checkCopperHoleClearances (strokeHole : Nat → Int → Nat → PolySet)
    (clearance tol : Int) (copperByLayer : List PolySet)
    (boardHoles : List HoleM) (devices : List DeviceHolesM) : List CHMsg :=
  checkCopperHoleClearancesWith strokeHole
    (fun d => d + 2 * (clearance - tol - 1)) copperByLayer boardHoles devices

/-- Modelled from the spec: the check as claim C5 states it, with the
hole's path stroked at width `hole.diameter + 2*clearance - 2`. -/
def checkCopperHoleClearancesClaim (strokeHole : Nat → Int → Nat → PolySet)
    (clearance : Int) (copperByLayer : List PolySet)
    (boardHoles : List HoleM) (devices : List DeviceHolesM) : List CHMsg :=
  checkCopperHoleClearancesWith strokeHole
    (fun d => d + 2 * clearance - 2) copperByLayer boardHoles devices

/-- Modelled from the spec, structure of claim C5 with the width left as a
parameter: all non-plated holes (board-level, then device-level, each with
its transform) are collected, and a violation is emitted for a hole iff
its stroked path intersects the union `C` of the copper of every enabled
copper layer. -/
def copperHoleClearanceSpec (strokeHole : Nat → Int → Nat → PolySet)
    (width : Int → Int) (copperByLayer : List PolySet)
    (boardHoles : List HoleM) (devices : List DeviceHolesM) : List CHMsg :=
  ((boardHoles.map fun h => ((none : Option Nat), h, (0 : Nat))) ++
    devices.flatMap fun dev =>
      dev.holes.map fun h => (some dev.objId, h, dev.transformId)).filterMap
    fun e =>
      if !(interPS (uniteListPS copperByLayer)
          (strokeHole e.2.1.pathId (width e.2.1.diameter) e.2.2)).isEmpty
      then some ⟨e.1, e.2.1.objId⟩ else none

/-- C5 (amended): the copper-to-NPTH-hole clearance check emits a
`CopperHoleClearanceViolation` for exactly the holes (board-level or
device-level, in that order) whose path stroked at width
`hole.diameter + 2*(clearance - max_arc_tolerance - 1)` intersects the
union of the copper of every enabled copper layer. -/
theorem copperHoleClearance_characterization
    (strokeHole : Nat → Int → Nat → PolySet) (clearance tol : Int)
    (copperByLayer : List PolySet) (boardHoles : List HoleM)
    (devices : List DeviceHolesM) :
    checkCopperHoleClearances strokeHole clearance tol copperByLayer
        boardHoles devices =
      copperHoleClearanceSpec strokeHole
        (fun d => d + 2 * (clearance - tol - 1)) copperByLayer boardHoles
        devices := by
  unfold checkCopperHoleClearances checkCopperHoleClearancesWith
    copperHoleClearanceSpec
  rw [List.filterMap_append, List.filterMap_map, List.filterMap_flatMap]
  refine congrArg₂ (fun a b => a ++ b) rfl (congrArg (List.flatMap devices) ?_)
  funext dev
  rw [List.filterMap_map]
  rfl

/-- The width-revealing stroke generator of the C5 counterexample: the
stroked hole covers exactly the cell labelled by the stroke width. -/
def strokeW5 : Nat → Int → Nat → PolySet := fun _ w _ => [(w, 0)]

/-- C5 counterexample: a board hole of diameter 1 mm with
`min_copper_npth_clearance` 200 µm and the arc tolerance 5 µm.  The source
strokes the hole at `1000000 + 2*(200000 - 5000 - 1) = 1389998` nm, while
the claim's width is `1000000 + 2*200000 - 2 = 1399998` nm.  Against
copper occupying exactly the claim's cell, the claim's reading emits a
violation but the source does not: the claim's width formula omits the
`2 * max_arc_tolerance` term. -/
theorem copperHoleClearance_width_claim_false :
    checkCopperHoleClearances strokeW5 200000 maxArcToleranceNm
        [[(1399998, 0)]] [⟨2, 1000000, 1⟩] [] = [] ∧
    checkCopperHoleClearancesClaim strokeW5 200000
        [[(1399998, 0)]] [⟨2, 1000000, 1⟩] [] = [⟨none, 2⟩] ∧
    checkCopperHoleClearances strokeW5 200000 maxArcToleranceNm
        [[(1399998, 0)]] [⟨2, 1000000, 1⟩] [] ≠
      checkCopperHoleClearancesClaim strokeW5 200000
        [[(1399998, 0)]] [⟨2, 1000000, 1⟩] [] := by
  refine ⟨rfl, rfl, ?_⟩
  decide

/-! ### Message emission and the copper-board clearance pad loop
(`BoardDesignRuleCheck::checkCopperBoardClearances`, lines 491-551, and
`emitMessage`, lines 1076-1080) -/

/-- A `GraphicsLayer` as the pad loop sees it. -/
structure LayerM where
  name : String
  isCopper : Bool
  isEnabled : Bool
deriving DecidableEq, Repr

/-- A `BI_FootprintPad` as the board-clearance check sees it: identity and
the layer names on which the pad exists (`pad->isOnLayer`). -/
structure PadB where
  objId : Nat
  onLayers : List String
deriving DecidableEq, Repr

/-- A `DrcMsgCopperBoardClearanceViolation` for a pad: the constructor of
line 503-504 receives only the pad, the clearance and the locations — no
layer, so the message identity is (kind, pad). -/
structure CBMsg where
  padId : Nat
  locations : PolySet
deriving DecidableEq, Repr

/-- Translated from `emitMessage`: the message is appended to `mMessages`
unconditionally — there is no duplicate filtering. -/
def emitMessage (mMessages : List CBMsg) (msg : CBMsg) : List CBMsg :=
  mMessages ++ [msg]

/-- Translated from the pad loop of lines 495-508: for each pad, for EACH
enabled copper layer the pad is on, the pad geometry on that layer is
intersected with the restricted area around the board outline, and a
message is emitted on every such layer whose intersection is non-empty.
`padGeom` stands for `BoardClipperPathGenerator::addPad` (modelled from
the spec: the pad's polygon set on the given layer).  The emitted messages
are appended in order by `emitMessage`. -/
def padBoardClearanceMsgs (padGeom : Nat → String → PolySet)
    (restrictedArea : PolySet) (allLayers : List LayerM)
    (pads : List PadB) : List CBMsg :=
  pads.flatMap fun pad =>
    allLayers.filterMap fun layer =>
      if layer.isCopper && layer.isEnabled &&
          pad.onLayers.contains layer.name then
        (if (interPS restrictedArea (padGeom pad.objId layer.name)).isEmpty
         then none
         else some ⟨pad.objId,
           interPS restrictedArea (padGeom pad.objId layer.name)⟩)
      else none

theorem length_filterMap_eq_filter {α β : Type} (f : α → Option β)
    (p : α → Bool) (h : ∀ x, (f x).isSome = p x) (l : List α) :
    (l.filterMap f).length = (l.filter p).length := by
  induction l with
  | nil => rfl
  | cons x xs ih =>
      rw [List.filterMap_cons, List.filter_cons]
      cases hfx : f x with
      | none =>
          have hp : p x = false := by rw [← h x, hfx]; rfl
          simp [hp, ih]
      | some b =>
          have hp : p x = true := by rw [← h x, hfx]; rfl
          simp [hp, ih]

theorem padLayerMsgs_length (padGeom : Nat → String → PolySet)
    (restrictedArea : PolySet) (pad : PadB) (allLayers : List LayerM) :
    (allLayers.filterMap fun layer =>
      if layer.isCopper && layer.isEnabled &&
          pad.onLayers.contains layer.name then
        (if (interPS restrictedArea (padGeom pad.objId layer.name)).isEmpty
         then none
         else some (CBMsg.mk pad.objId
           (interPS restrictedArea (padGeom pad.objId layer.name))))
      else none).length =
    (allLayers.filter fun layer =>
      layer.isCopper && layer.isEnabled && pad.onLayers.contains layer.name &&
        !(interPS restrictedArea (padGeom pad.objId layer.name)).isEmpty).length := by
  refine length_filterMap_eq_filter _ _ (fun layer => ?_) allLayers
  cases hg : layer.isCopper && layer.isEnabled &&
      pad.onLayers.contains layer.name with
  | false => rfl
  | true =>
      cases he : (interPS restrictedArea
          (padGeom pad.objId layer.name)).isEmpty with
      | true => rfl
      | false => rfl

/-- C8 (amended): within the pad loop of the copper-board clearance check,
one message is appended per (pad, enabled copper layer the pad is on whose
pad geometry intersects the restricted area): the total message count is
the sum over the pads of the number of such layers.  Since the message
carries no layer, a through-hole pad violating on several layers yields
several messages with the same (kind, pad) identity — duplicates are
possible and are not filtered by `emitMessage`. -/
theorem copperBoardClearance_message_count (padGeom : Nat → String → PolySet)
    (restrictedArea : PolySet) (allLayers : List LayerM)
    (pads : List PadB) :
    (padBoardClearanceMsgs padGeom restrictedArea allLayers pads).length =
      (pads.map fun pad => (allLayers.filter fun layer =>
        layer.isCopper && layer.isEnabled &&
          pad.onLayers.contains layer.name &&
          !(interPS restrictedArea
            (padGeom pad.objId layer.name)).isEmpty).length).sum := by
  unfold padBoardClearanceMsgs
  rw [List.length_flatMap]
  refine congrArg List.sum
    (congrArg (fun h => List.map h pads) (funext fun pad => ?_))
  exact padLayerMsgs_length padGeom restrictedArea pad allLayers

/-- The pad geometry of the C8 counterexample: the same cell on every
layer. -/
def geomC8 : Nat → String → PolySet := fun _ _ => [(0, 0)]

/-- C8 counterexample: a through-hole pad existing on the two enabled
copper layers, whose geometry intersects the restricted area on both.
The run emits TWO `CopperBoardClearanceViolation` messages that agree in
kind, involved object and (absent) layer — the claim that no two messages
of a run share the same (kind, involved-object-ids, layer) identity
fails. -/
theorem copperBoardClearance_duplicate_messages :
    padBoardClearanceMsgs geomC8 [(0, 0)]
        [⟨"top_cu", true, true⟩, ⟨"bot_cu", true, true⟩]
        [⟨5, ["top_cu", "bot_cu"]⟩] =
      [⟨5, [(0, 0)]⟩, ⟨5, [(0, 0)]⟩] ∧
    ¬ List.Pairwise (fun a b => a ≠ b)
        (padBoardClearanceMsgs geomC8 [(0, 0)]
          [⟨"top_cu", true, true⟩, ⟨"bot_cu", true, true⟩]
          [⟨5, ["top_cu", "bot_cu"]⟩]) := by
  refine ⟨rfl, ?_⟩
  decide

/-! ### Courtyard polygon collection
(`BoardDesignRuleCheck::getDeviceCourtyardPaths`, lines 1030-1055) -/

/-- A flattened courtyard contribution: either a transformed polygon path
(kept abstract by its identity) or a circle with its centre and
diameter. -/
inductive CourtyardPath
  | poly (pathId : Nat)
  | circle (center : Int × Int) (diameter : Int)
deriving DecidableEq, Repr

/-- A footprint polygon as the courtyard collection sees it. -/
structure FootprintPolygonM where
  layerName : String
  pathId : Nat
deriving DecidableEq, Repr

/-- A footprint circle as the courtyard collection sees it. -/
structure FootprintCircleM where
  layerName : String
  center : Int × Int
  diameter : Int
deriving DecidableEq, Repr

/-- A device's library footprint, as far as courtyards are concerned. -/
structure DeviceFootprintM where
  polygons : List FootprintPolygonM
  circles : List FootprintCircleM

/-- Modelled from the spec: `Transform(device)` applies
`T(p) = translate + rotate(mirror(p))` to points and maps layer names
(top ↔ bottom when mirrored); the `Transform` class is outside `src/`.
The rotate-mirror part and the layer map are kept abstract as function
fields. -/
structure TransformM where
  translate : Int × Int
  rotMirror : Int × Int → Int × Int
  mapLayer : String → String

/-- `Transform::map` on a point: `translate + rotate(mirror(p))`. -/
def transformMapPoint (t : TransformM) (p : Int × Int) : Int × Int :=
  (t.translate.1 + (t.rotMirror p).1, t.translate.2 + (t.rotMirror p).2)

/-- Translated from `getDeviceCourtyardPaths`: polygons on the courtyard
layer contribute their transformed path (line 1039); for a circle on the
courtyard layer the absolute position `transform.map(circle.getCenter())`
is computed (line 1048) but the path united into the result is
`Path::circle(circle.getDiameter())` WITHOUT the translation to that
position (lines 1049-1052). -/
def getDeviceCourtyardPaths (device : DeviceFootprintM) (t : TransformM)
    (layerName : String) : List CourtyardPath :=
  (device.polygons.filterMap fun poly =>
    if t.mapLayer poly.layerName = layerName then
      some (.poly poly.pathId)
    else none) ++
  (device.circles.filterMap fun c =>
    if t.mapLayer c.layerName = layerName then
      some (.circle (0, 0) c.diameter)
    else none)

/-- Modelled from the spec: the intended behaviour per claim C9 — each
courtyard circle contributes `Path::circle(circle.diameter)` translated to
the circle's actual centre, i.e. the device transform applied to
`circle.getCenter()`. -/
def getDeviceCourtyardPathsSpec (device : DeviceFootprintM) (t : TransformM)
    (layerName : String) : List CourtyardPath :=
  (device.polygons.filterMap fun poly =>
    if t.mapLayer poly.layerName = layerName then
      some (.poly poly.pathId)
    else none) ++
  (device.circles.filterMap fun c =>
    if t.mapLayer c.layerName = layerName then
      some (.circle (transformMapPoint t c.center) c.diameter)
    else none)

/-- The device of the C9 failing input: one courtyard circle of diameter
500000 nm centred at the footprint origin. -/
def devC9 : DeviceFootprintM :=
  ⟨[], [⟨"top_courtyard", (0, 0), 500000⟩]⟩

/-- The transform of the C9 failing input: the device is placed at
(1000, 2000) nm, unrotated and unmirrored. -/
def tC9 : TransformM := ⟨(1000, 2000), fun p => p, fun n => n⟩

/-- C9: the source unites the courtyard circle at the footprint origin
instead of at the device transform applied to the circle's centre: for a
device placed at (1000, 2000), the collected courtyard path stays at
(0, 0), while the intended behaviour stated by the claim places it at
(1000, 2000).  This evaluates the code at the failing input of the
code-bug report. -/
theorem courtyard_circle_not_translated :
    getDeviceCourtyardPaths devC9 tC9 "top_courtyard" =
      [.circle (0, 0) 500000] ∧
    getDeviceCourtyardPathsSpec devC9 tC9 "top_courtyard" =
      [.circle (1000, 2000) 500000] ∧
    getDeviceCourtyardPaths devC9 tC9 "top_courtyard" ≠
      getDeviceCourtyardPathsSpec devC9 tC9 "top_courtyard" := by
  refine ⟨rfl, rfl, ?_⟩
  decide

end LibrePCB
